import Mathlib

/-!
Verification development for the SOFA operation synthesizer
(`src/tools/build-operation-for-field.ts`) and its structural node
interning cache (`src/tools/duplicate.ts`).

The TypeScript source is shallowly embedded: the GraphQL type graph is a
first-class value, the recursive walker is translated with an explicit
fuel parameter (the TS recursion terminates via the circular-reference
guard; fuel makes the translation structurally recursive so that
concrete runs reduce definitionally), the module-level mutable
accumulators (`operationVariables`, `fieldTypeMap`) are threaded as an
explicit state value, and the push/pop stack discipline on `path` /
`ancestors` (which the source restores on every exit path) is rendered
by passing the stacks as immutable values.

`getCachedNode` inside the synthesizer returns a node with the same
structural signature as its argument; for the structural properties
proved about the synthesizer it is modelled as the identity, and the
cache itself (with its hash stamping and in-place argument sorting) is
modelled separately and faithfully for the interning claims.
-/

namespace Sofa

/-- GraphQL wrapped type reference (graphql-js `GraphQLList` /
`GraphQLNonNull` wrappers around a named type). -/
inductive TypeRef where
  | named (name : String)
  | list (ofType : TypeRef)
  | nonNull (ofType : TypeRef)
deriving DecidableEq, Repr

/-- `getNamedType`: unwrap list/non-null wrappers down to the named type. -/
def TypeRef.namedName : TypeRef → String
  | .named n => n
  | .list t => t.namedName
  | .nonNull t => t.namedName

/-- `isNonNullType`. -/
def TypeRef.isNonNull : TypeRef → Bool
  | .nonNull _ => true
  | _ => false

/-- `type.toString()` of graphql-js: `[T]` for lists, `T!` for non-null. -/
def TypeRef.toTypeString : TypeRef → String
  | .named n => n
  | .list t => "[" ++ t.toTypeString ++ "]"
  | .nonNull t => t.toTypeString ++ "!"

/-- A schema argument (`GraphQLArgument`): name and input type. -/
structure GArg where
  name : String
  type : TypeRef
deriving DecidableEq, Repr

/-- A schema field (`GraphQLField`): name, arguments, output type. -/
structure GField where
  name : String
  args : List GArg
  type : TypeRef
deriving DecidableEq, Repr

/-- Kind tag of a named type in the type graph. -/
inductive GTypeKind where
  | scalar | enum | object | interface | union
deriving DecidableEq, Repr

/-- A named type of the type graph.  `fields` is meaningful for
object/interface types (in `Object.keys` insertion order), `interfaces`
lists the interface names an object type declares, and `unionTypes`
lists the member type names of a union. -/
structure GTypeDef where
  name : String
  kind : GTypeKind
  fields : List GField
  interfaces : List String
  unionTypes : List String
deriving DecidableEq, Repr

def GTypeDef.isScalarType (t : GTypeDef) : Bool := t.kind == .scalar
def GTypeDef.isEnumType (t : GTypeDef) : Bool := t.kind == .enum
def GTypeDef.isObjectType (t : GTypeDef) : Bool := t.kind == .object
def GTypeDef.isInterfaceType (t : GTypeDef) : Bool := t.kind == .interface
def GTypeDef.isUnionType (t : GTypeDef) : Bool := t.kind == .union

/-- The schema: its type map (`Object.values(schema.getTypeMap())`
order) and the names of the root operation types. -/
structure GSchema where
  typeMap : List GTypeDef
  queryTypeName : Option String
  mutationTypeName : Option String
  subscriptionTypeName : Option String
deriving DecidableEq, Repr

def lookupType (s : GSchema) (name : String) : Option GTypeDef :=
  s.typeMap.find? (fun t => t.name == name)

/-- Resolve a wrapped type reference to its named type definition.  A
dangling reference (malformed schema, a precondition violation the
source does not defend against) is mapped to a scalar placeholder,
which like graphql-js's `undefined` matches none of the walker's
object/interface/union branches. -/
def lookupNamedType (s : GSchema) (t : TypeRef) : GTypeDef :=
  (lookupType s t.namedName).getD
    { name := t.namedName, kind := .scalar, fields := [], interfaces := [], unionTypes := [] }

/-- `OperationTypeNode`. -/
inductive OperationType where
  | query | mutation | subscription
deriving DecidableEq, Repr

def OperationType.str : OperationType → String
  | .query => "query"
  | .mutation => "mutation"
  | .subscription => "subscription"

/-- Modelled from the spec: `getDefinedRootType` of `rootTypes.js` (the
repository file is not under `src/`): the schema's root operation type
for the given operation kind. -/
def getDefinedRootType (s : GSchema) (k : OperationType) : Option GTypeDef :=
  match k with
  | .query => s.queryTypeName.bind (lookupType s)
  | .mutation => s.mutationTypeName.bind (lookupType s)
  | .subscription => s.subscriptionTypeName.bind (lookupType s)

/-- Modelled from the spec: `getRootTypeNames` of `rootTypes.js`: the
set of names of the schema's defined root operation types. -/
def getRootTypeNames (s : GSchema) : List String :=
  (s.queryTypeName.toList ++ s.mutationTypeName.toList ++ s.subscriptionTypeName.toList)

/-- The `SelectedFields` option: either a boolean or an
include/exclude tree keyed by field name. -/
inductive SelectedFields where
  | bool (b : Bool)
  | tree (fields : List (String × SelectedFields))

/-- `typeof selectedFields === 'boolean'`. -/
def SelectedFields.isBool : SelectedFields → Bool
  | .bool _ => true
  | .tree _ => false

/-- JavaScript truthiness of a `SelectedFields` value: objects (even
empty ones) are truthy, booleans are themselves. -/
def SelectedFields.isTruthy : SelectedFields → Bool
  | .bool b => b
  | .tree _ => true

/-- `selectedFields[fieldName]` on an object tree; a missing key is
JavaScript `undefined`, which the walker's truthiness test (`if
(!selectedSubFields) continue`) treats exactly like `false`. -/
def SelectedFields.sub : SelectedFields → String → SelectedFields
  | .tree fs, name => ((fs.find? (fun p => p.1 == name)).map (·.2)).getD (.bool false)
  | .bool b, _ => .bool b

/-- AST argument node as emitted by the synthesizer: `{ kind: Argument,
name, value: { kind: Variable, name: variableName } }` (the value is
always a variable reference in this code). -/
structure ArgumentNode where
  name : String
  variableName : String
deriving DecidableEq, Repr

/-- AST selection node.  A `SelectionSetNode` is represented by its
`selections` list; an absent (`undefined`) selection set is `none`
(the source only assigns the `selectionSet` property when the resolved
set is truthy).  `fieldAlias` models the node's `alias` property
(`alias` is reserved in Lean). -/
inductive Selection where
  | field (name : String) (fieldAlias : Option String) (arguments : List ArgumentNode)
      (selectionSet : Option (List Selection))
  | inlineFragment (typeCondition : String) (selectionSet : Option (List Selection))

/-- `VariableDefinitionNode`: the variable name and its type node
(type reference nodes share the shape of `TypeRef`). -/
structure VariableDefinition where
  varName : String
  type : TypeRef
deriving DecidableEq, Repr

/-- `OperationDefinitionNode` as assembled by
`buildOperationAndCollectVariables`.  The root selection list holds an
`Option Selection` because the source stores `resolveField`'s result
directly, which is `null` when the root field is dropped. -/
structure OperationDefinition where
  operation : OperationType
  name : String
  variableDefinitions : List VariableDefinition
  selections : List (Option Selection)

/-- The module-level mutable accumulators of
`build-operation-for-field.ts`: `operationVariables` and
`fieldTypeMap` (an insertion-ordered string map). -/
structure SynthState where
  operationVariables : List VariableDefinition
  fieldTypeMap : List (String × String)
deriving DecidableEq, Repr

def assocGet (m : List (String × String)) (k : String) : Option String :=
  (m.find? (fun p => p.1 == k)).map (·.2)

/-- `Map.set`: replace the value at an existing key in place, else
append. -/
def mapSet (m : List (String × String)) (k v : String) : List (String × String) :=
  if m.any (fun p => p.1 == k) then m.map (fun p => if p.1 == k then (k, v) else p)
  else m ++ [(k, v)]

/-- The per-call options, fixed across the recursion. -/
structure SynthConfig where
  schema : GSchema
  models : List String
  ignore : List String
  depthLimit : Option Nat
  circularReferenceDepth : Nat
  argNames : Option (List String)
  rootTypeNames : List String
deriving DecidableEq, Repr

/-- `depth > depthLimit`, where `none` models `Infinity`. -/
def depthExceeds (depth : Nat) (limit : Option Nat) : Bool :=
  match limit with
  | none => false
  | some l => depth > l

/-- `hasCircularRef`: the ancestor stack is passed head-as-top (the
source pushes at the end of the array and inspects
`types[types.length - 1]`; only the top element and name counts
matter).  Scalar types are never circular; otherwise the occurrence
count of the top type's name in the whole stack is compared with the
threshold. -/
def hasCircularRef (types : List GTypeDef) (depth : Nat) : Bool :=
  match types with
  | [] => false
  | t :: _ =>
    if t.isScalarType then false
    else decide ((types.filter (fun u => u.name == t.name)).length > depth)

/-- `getArgumentName`: path-qualified variable name. -/
def getArgumentName (name : String) (path : List String) : String :=
  if path.length = 0 then name else String.intercalate "_" path ++ "_" ++ name

/-- `resolveVariableType` inside `resolveVariable`: translate the
schema input type's list/non-null/named wrappers into type reference
nodes (the node shapes coincide with `TypeRef`). -/
def resolveVariableType : TypeRef → TypeRef
  | .list t => .list (resolveVariableType t)
  | .nonNull t => .nonNull (resolveVariableType t)
  | .named n => .named n

/-- `resolveVariable(arg, name)`: the variable is named
`name || arg.name` (JavaScript: an empty string falls back too). -/
def resolveVariable (arg : GArg) (name : Option String) : VariableDefinition :=
  { varName :=
      match name with
      | some n => if n = "" then arg.name else n
      | none => arg.name,
    type := resolveVariableType arg.type }

/-- `argNames && !argNames.includes(argumentName)`: the argument is
excluded when an allow-list is configured and does not contain the
path-qualified name. -/
def argExcluded (argNames : Option (List String)) (argumentName : String) : Bool :=
  match argNames with
  | some names => !names.contains argumentName
  | none => false

/-- The argument loop of `resolveField`: walk `field.args` in order;
an argument excluded by the allow-list is silently skipped when
nullable and aborts the whole field (`removeField = true`, `break`)
when non-null.  Included arguments register an operation variable
(unless this is the first call) and produce an argument node.  The
state accumulated before an aborting argument is kept, as in the
source. -/
def processArgs (argNames : Option (List String)) (firstCall : Bool) (path : List String) :
    List GArg → SynthState → SynthState × List ArgumentNode × Bool
  | [], st => (st, [], false)
  | arg :: rest, st =>
    let argumentName := getArgumentName arg.name path
    if argExcluded argNames argumentName then
      if arg.type.isNonNull then (st, [], true)
      else processArgs argNames firstCall path rest st
    else
      let st1 :=
        if firstCall then st
        else { st with operationVariables :=
                 st.operationVariables ++ [resolveVariable arg (some argumentName)] }
      let res := processArgs argNames firstCall path rest st1
      (res.1, ⟨arg.name, argumentName⟩ :: res.2.1, res.2.2)

/-- `'!' → 'NonNull'`, `'[' → 'List'`, `']' → ''` applied to the field
type string for alias disambiguation. -/
def sanitizeTypeStr (s : String) : String :=
  ((s.replace "!" "NonNull").replace "[" "List").replace "]" ""

/-- Arguments of a `resolveField` call. -/
structure FieldReq where
  type : GTypeDef
  field : GField
  firstCall : Bool
  path : List String
  ancestors : List GTypeDef
  selectedFields : SelectedFields
  depth : Nat

/-- Arguments of a `resolveSelectionSet` call. -/
structure SSReq where
  parent : GTypeDef
  type : GTypeDef
  firstCall : Bool
  path : List String
  ancestors : List GTypeDef
  selectedFields : SelectedFields
  depth : Nat

/-- `resolveField`, parameterized by the selection-set resolver it
recurses into (the fuelled `resolveSelectionSet` is plugged in below;
keeping the recursion point abstract makes the translation structurally
recursive and lets the argument-handling lemmas hold for every
resolver).  Returns the updated accumulator state and the produced
selection node (`none` models the `null` "drop this field" sentinel). -/
def resolveFieldWith
    (rss : SSReq → SynthState → SynthState × Option (List Selection))
    (cfg : SynthConfig) (req : FieldReq) (st : SynthState) :
    SynthState × Option Selection :=
  let field := req.field
  let namedType := lookupNamedType cfg.schema field.type
  let res := processArgs cfg.argNames req.firstCall req.path field.args st
  let st1 := res.1
  let args := res.2.1
  if res.2.2 then (st1, none)
  else
    let fieldPathStr := String.intercalate "." (req.path ++ [field.name])
    let currentFieldTypeStr := field.type.toTypeString
    let fieldName :=
      match assocGet st1.fieldTypeMap fieldPathStr with
      | some existing =>
        if existing ≠ currentFieldTypeStr then field.name ++ sanitizeTypeStr currentFieldTypeStr
        else field.name
      | none => field.name
    let st2 := { st1 with fieldTypeMap := mapSet st1.fieldTypeMap fieldPathStr currentFieldTypeStr }
    let aliasNode := if fieldName ≠ field.name then some fieldName else none
    if namedType.isScalarType || namedType.isEnumType then
      (st2, some (.field field.name aliasNode args none))
    else
      let res2 := rss
        { parent := req.type, type := namedType, firstCall := req.firstCall,
          path := req.path ++ [field.name], ancestors := req.type :: req.ancestors,
          selectedFields := req.selectedFields, depth := req.depth + 1 } st2
      (res2.1, some (.field field.name aliasNode args res2.2))

/-- One iteration of the field loop in `resolveSelectionSet`'s object
branch: skip the field when its named type would be circular or when
the selected-fields tree disables it; otherwise resolve it, dropping a
`null` result and a field whose present selection set is empty
(`fieldSelection.selectionSet?.selections?.length || 0 > 0`). -/
def objectFieldStep
    (rss : SSReq → SynthState → SynthState × Option (List Selection))
    (cfg : SynthConfig) (type : GTypeDef) (path : List String)
    (ancestors : List GTypeDef) (selectedFields : SelectedFields) (depth : Nat)
    (acc : SynthState × List Selection) (field : GField) :
    SynthState × List Selection :=
  let namedType := lookupNamedType cfg.schema field.type
  if hasCircularRef (namedType :: ancestors) cfg.circularReferenceDepth then acc
  else
    let selectedSubFields :=
      if selectedFields.isBool then SelectedFields.bool true else selectedFields.sub field.name
    if !selectedSubFields.isTruthy then acc
    else
      let res := resolveFieldWith rss cfg
        { type := type, field := field, firstCall := false, path := path ++ [field.name],
          ancestors := ancestors, selectedFields := selectedSubFields, depth := depth } acc.1
      match res.2 with
      | none => (res.1, acc.2)
      | some sel =>
        match sel with
        | .field _ _ _ (some subSels) =>
          if subSels.length > 0 then (res.1, acc.2 ++ [sel]) else (res.1, acc.2)
        | _ => (res.1, acc.2 ++ [sel])

/-- One iteration of the union/interface fan-out: push the member type,
consult the guard, pop; if not circular resolve the member's selection
set and append an inline fragment.  Faithful to the source, only a
present-but-empty selection set is skipped
(`if (selectionSet?.selections?.length == 0) continue`): an absent
(`undefined`) result still yields an inline fragment, because
JavaScript `undefined == 0` is false. -/
def fanOutStep
    (rssRec : SSReq → SynthState → SynthState × Option (List Selection))
    (cfg : SynthConfig) (req : SSReq)
    (acc : SynthState × List Selection) (t : GTypeDef) :
    SynthState × List Selection :=
  if hasCircularRef (t :: req.ancestors) cfg.circularReferenceDepth then acc
  else
    let res := rssRec
      { parent := req.type, type := t, firstCall := false, path := req.path,
        ancestors := req.ancestors, selectedFields := req.selectedFields,
        depth := req.depth } acc.1
    match res.2 with
    | some [] => (res.1, acc.2)
    | _ => (res.1, acc.2 ++ [Selection.inlineFragment t.name res.2])

/-- `type.getTypes()` of a union: its member type definitions. -/
def unionMemberTypes (s : GSchema) (t : GTypeDef) : List GTypeDef :=
  t.unionTypes.filterMap (lookupType s)

/-- The interned identifier-only selection set
(`STATIC_ID_SELECTION_SET`). -/
def STATIC_ID_SELECTION_SET : List Selection := [.field "id" none [] none]

/-- `resolveSelectionSet`, with an explicit fuel parameter (exhausted
fuel yields no selection set; the claims are evaluated at ample fuel).
Branch order and conditions follow the source: the boolean-mode depth
guard, then union, interface, and non-root object types; scalar/enum
(and root object) types fall through to `undefined`. -/
def resolveSelectionSetGo (cfg : SynthConfig) :
    Nat → SSReq → SynthState → SynthState × Option (List Selection)
  | 0, _, st => (st, none)
  | Nat.succ fuel, req, st =>
    if req.selectedFields.isBool && depthExceeds req.depth cfg.depthLimit then (st, none)
    else if req.type.isUnionType then
      let res :=
        (unionMemberTypes cfg.schema req.type).foldl
          (fanOutStep (resolveSelectionSetGo cfg fuel) cfg req) (st, [])
      if res.2.length > 0 then (res.1, some res.2) else (res.1, none)
    else if req.type.isInterfaceType then
      let res :=
        cfg.schema.typeMap.foldl
          (fun acc t =>
            if t.isObjectType && t.interfaces.contains req.type.name then
              fanOutStep (resolveSelectionSetGo cfg fuel) cfg req acc t
            else acc)
          (st, [])
      if res.2.length > 0 then (res.1, some res.2) else (res.1, none)
    else if req.type.isObjectType && !cfg.rootTypeNames.contains req.type.name then
      let isIgnored :=
        cfg.ignore.contains req.type.name ||
        cfg.ignore.contains (req.parent.name ++ "." ++ (req.path.getLast?.getD "undefined"))
      let isModel := cfg.models.contains req.type.name
      if !req.firstCall && isModel && !isIgnored then (st, some STATIC_ID_SELECTION_SET)
      else
        let res :=
          req.type.fields.foldl
            (objectFieldStep (resolveSelectionSetGo cfg fuel) cfg req.type req.path
              req.ancestors req.selectedFields req.depth)
            (st, [])
        if res.2.length > 0 then (res.1, some res.2) else (res.1, none)
    else (st, none)

/-- `resolveSelectionSet` at the given fuel. -/
def resolveSelectionSet (cfg : SynthConfig) (fuel : Nat) (req : SSReq) (st : SynthState) :
    SynthState × Option (List Selection) :=
  resolveSelectionSetGo cfg fuel req st

/-- `resolveField` at the given fuel. -/
def resolveField (cfg : SynthConfig) (fuel : Nat) (req : FieldReq) (st : SynthState) :
    SynthState × Option Selection :=
  resolveFieldWith (resolveSelectionSetGo cfg fuel) cfg req st

/-- `buildOperationNodeForField` followed by
`buildOperationAndCollectVariables`: reset the accumulators, default
the options (`models || []`, `depthLimit || Infinity`,
`circularReferenceDepth || 1` — JavaScript `||`, so an explicit `0`
falls back too), bind the root field's allow-listed arguments as bare
variables, resolve the root field with `firstCall = true`, and attach
the accumulated variables.  `none` models the exception graphql-js
raises when the root type or root field is missing. -/
def buildOperationNodeForField (schema : GSchema) (kind : OperationType) (fieldName : String)
    (models : Option (List String)) (ignore : List String) (depthLimit : Option Nat)
    (circularReferenceDepth : Option Nat) (argNames : Option (List String))
    (selectedFields : SelectedFields) (fuel : Nat) : Option OperationDefinition :=
  match getDefinedRootType schema kind with
  | none => none
  | some type =>
    match type.fields.find? (fun f => f.name == fieldName) with
    | none => none
    | some field =>
      let cfg : SynthConfig :=
        { schema := schema,
          models := models.getD [],
          ignore := ignore,
          depthLimit := match depthLimit with | some 0 => none | some l => some l | none => none,
          circularReferenceDepth :=
            match circularReferenceDepth with | some 0 => 1 | some c => c | none => 1,
          argNames := argNames,
          rootTypeNames := getRootTypeNames schema }
      let st0 : SynthState := { operationVariables := [], fieldTypeMap := [] }
      let st1 := field.args.foldl
        (fun st arg =>
          let ok := match argNames with | none => true | some names => names.contains arg.name
          if ok then
            { st with operationVariables :=
                st.operationVariables ++ [resolveVariable arg (some arg.name)] }
          else st)
        st0
      let res := resolveField cfg fuel
        { type := type, field := field, firstCall := true, path := [], ancestors := [],
          selectedFields := selectedFields, depth := 0 } st1
      some { operation := kind, name := fieldName ++ "_" ++ kind.str,
             variableDefinitions := res.1.operationVariables, selections := [res.2] }

/-!
Model of `src/tools/duplicate.ts`: the structural hasher
(`buildStructuralSignature`, `calculateNodeHash`) and the interning
cache (`getCachedNode`).  The modelled AST fragment is the field nodes
the synthesizer produces (name, optional alias, argument nodes whose
values are variable references, optional selection set), which is the
fragment the claims exercise; absent optional members (directives,
variable definitions) contribute nothing to signatures in the source
and are omitted from the model.  Node mutation (the in-place
`Array.prototype.sort` of `arguments` and the stamping of the memoized
`hash` property) is made explicit: every operation returns the
post-call state of the node it was given. -/

namespace Dup

/-- An argument node: `name` and the referenced variable's name (the
synthesizer only emits `Variable` values, whose `getValueSignature`
is `V:` followed by the variable name). -/
structure DupArg where
  name : String
  varName : String
deriving DecidableEq, Repr

/-- A `HashNode`: a field AST node extended with the optional memoized
`hash` property that `duplicate.ts` stamps onto nodes. -/
inductive DupNode where
  | field (name : String) (fieldAlias : Option String) (arguments : List DupArg)
      (selectionSet : Option (List DupNode)) (hash : Option String)

def DupNode.name : DupNode → String
  | .field n _ _ _ _ => n

def DupNode.args : DupNode → List DupArg
  | .field _ _ a _ _ => a

def DupNode.selSet : DupNode → Option (List DupNode)
  | .field _ _ _ s _ => s

def DupNode.hash : DupNode → Option String
  | .field _ _ _ _ h => h

def DupNode.withHash : DupNode → String → DupNode
  | .field n a args ss _, h => .field n a args ss (some h)

/-- `MAX_DEPTH`: the signature recursion bound. -/
def MAX_DEPTH : Nat := 3

/-- `extractNodeName`: `node.name?.value` (always present on the
modelled field nodes). -/
def extractNodeName (n : DupNode) : String := n.name

/-- `extractNodeSignature`: the reduced feature summary — counts of
arguments and selections when non-zero (directives and variable
definitions are absent on field nodes). -/
def extractNodeSignature : DupNode → String
  | .field _ _ args selSet _ =>
    let features :=
      (if args.length ≠ 0 then ["args:" ++ toString args.length] else []) ++
      (match selSet with
       | some sels => if sels.length ≠ 0 then ["sels:" ++ toString sels.length] else []
       | none => [])
    String.intercalate "," features

/-- `calculateNodeHash`: sha256 of `JSON.stringify({kind, name,
signature})` truncated to 12 hex digits.  The digest is modelled by
the (injectively encoded) hashed content itself: equal contents give
equal digests, which is the only property of sha256 the development
relies on. -/
def calculateNodeHash (n : DupNode) : String :=
  "H(Field;" ++ extractNodeName n ++ ";" ++ extractNodeSignature n ++ ")"

/-- Lexicographic comparison of character lists by code point:
`localeCompare(a, b) ≤ 0` for the ASCII names used here. -/
def charListLe : List Char → List Char → Bool
  | [], _ => true
  | _ :: _, [] => false
  | a :: as, b :: bs =>
    if a.toNat < b.toNat then true
    else if b.toNat < a.toNat then false
    else charListLe as bs

/-- `a.localeCompare(b) ≤ 0` on argument names. -/
def nameLe (a b : String) : Bool := charListLe a.data b.data

/-- Insert an argument after every element whose name compares ≤ its
own: together with the fold below this is the stable ascending sort
that `Array.prototype.sort` with an
`a.name.value.localeCompare(b.name.value)` comparator performs. -/
def insertArg (a : DupArg) : List DupArg → List DupArg
  | [] => [a]
  | b :: rest => if nameLe b.name a.name then b :: insertArg a rest else a :: b :: rest

/-- The in-place `node.arguments.sort(...)` of the Field branch of
`buildStructuralSignature`. -/
def sortArgsByName (args : List DupArg) : List DupArg :=
  args.foldl (fun acc a => insertArg a acc) []

/-- `buildStructuralSignature`, indexed by the remaining recursion
allowance `r = MAX_DEPTH + 1 - depth` (so `r = 0` is exactly the
source's `depth > MAX_DEPTH` truncation branch).  Returns the
signature together with the post-call node: the Field branch sorts the
node's argument array in place and recurses into its selections, and
the truncation branch stamps the reduced-feature hash onto a node that
does not carry one yet. -/
def buildSigGo : Nat → DupNode → String × DupNode
  | 0, node =>
    (match node.hash with
     | some h => (h, node)
     | none => let h := calculateNodeHash node; (h, node.withHash h))
  | Nat.succ r, node =>
    match node with
    | .field name fieldAlias args selSet hash =>
      let sortedArgs := sortArgsByName args
      let argParts :=
        if args.length ≠ 0 then
          "A" :: sortedArgs.foldr (fun a acc => a.name :: ("V:" ++ a.varName) :: acc) []
        else []
      let selResults : List String × Option (List DupNode) :=
        match selSet with
        | none => ([], none)
        | some sels =>
          let results : List (String × DupNode) := sels.map (buildSigGo r)
          ("S" :: results.map (fun p => p.1), some (results.map (fun p => p.2)))
      let selParts := selResults.1
      let selSet' := selResults.2
      let parts := ["Field", "F", name] ++
        (match fieldAlias with | some a => ["AS", a] | none => []) ++ argParts ++ selParts
      (String.intercalate "|" parts, .field name fieldAlias sortedArgs selSet' hash)

/-- `buildStructuralSignature(node, depth)`. -/
def buildStructuralSignature (node : DupNode) (depth : Nat) : String × DupNode :=
  buildSigGo (MAX_DEPTH + 1 - depth) node

/-- `getNodeHash`: sha256 over the normalized signature (returned
verbatim when short).  As with `calculateNodeHash`, the digest is
modelled by the content string: equal signatures give equal cache
keys in either representation. -/
def getNodeHash (node : DupNode) : String × DupNode :=
  buildStructuralSignature node 0

/-- The `nodeCache` map, in insertion order. -/
structure DupCache where
  entries : List (String × DupNode)

def emptyCache : DupCache := ⟨[]⟩

def cacheLookup (c : DupCache) (h : String) : Option DupNode :=
  (c.entries.find? (fun p => p.1 == h)).map (·.2)

/-- `getCachedNode`: compute the node's hash (mutating the node),
stamp the hash onto the node if it has none, and look the hash up in
the cache — returning the cached canonical node on a hit, and storing
the node on a miss.  The result triple is (returned node, post-call
state of the argument node, new cache); in JavaScript the first two
alias on a miss. -/
def getCachedNode (node : DupNode) (cache : DupCache) : DupNode × DupNode × DupCache :=
  let (hash, node1) := getNodeHash node
  let node2 := match node1.hash with | none => node1.withHash hash | some _ => node1
  match cacheLookup cache hash with
  | some cached => (cached, node2, cache)
  | none => (node2, node2, ⟨cache.entries ++ [(hash, node2)]⟩)

end Dup

/-!
Concrete schemas used by the claims.
-/

/-- A scalar type definition. -/
def scalarT (name : String) : GTypeDef :=
  { name := name, kind := .scalar, fields := [], interfaces := [], unionTypes := [] }

/-- An object type definition. -/
def objectT (name : String) (fields : List GField) : GTypeDef :=
  { name := name, kind := .object, fields := fields, interfaces := [], unionTypes := [] }

/-- An object type definition implementing interfaces. -/
def objectImplT (name : String) (interfaces : List String) (fields : List GField) : GTypeDef :=
  { name := name, kind := .object, fields := fields, interfaces := interfaces, unionTypes := [] }

/-- Scenario A (claim C1): `Query.user: User`,
`User { id: ID, name: String, friends: [User] }`. -/
def userSchema : GSchema :=
  { typeMap :=
      [ objectT "Query" [⟨"user", [], .named "User"⟩],
        objectT "User"
          [ ⟨"id", [], .named "ID"⟩,
            ⟨"name", [], .named "String"⟩,
            ⟨"friends", [], .list (.named "User")⟩ ],
        scalarT "ID", scalarT "String" ],
    queryTypeName := some "Query", mutationTypeName := none, subscriptionTypeName := none }

/-- Claim C4: `Query.t: T`, `T { id: ID, related: T }`. -/
def tSchema : GSchema :=
  { typeMap :=
      [ objectT "Query" [⟨"t", [], .named "T"⟩],
        objectT "T" [⟨"id", [], .named "ID"⟩, ⟨"related", [], .named "T"⟩],
        scalarT "ID" ],
    queryTypeName := some "Query", mutationTypeName := none, subscriptionTypeName := none }

/-- Claim C3: `Query.s: SearchResult`, `union SearchResult = A | B | C`,
each member with a single scalar field. -/
def unionSchema : GSchema :=
  { typeMap :=
      [ objectT "Query" [⟨"s", [], .named "SearchResult"⟩],
        { name := "SearchResult", kind := .union, fields := [], interfaces := [],
          unionTypes := ["A", "B", "C"] },
        objectT "A" [⟨"a", [], .named "String"⟩],
        objectT "B" [⟨"b", [], .named "String"⟩],
        objectT "C" [⟨"c", [], .named "String"⟩],
        scalarT "String" ],
    queryTypeName := some "Query", mutationTypeName := none, subscriptionTypeName := none }

/-- Scenario B (claim C5, depth 2): `Query.posts: [Post]`,
`Post.comments(limit: Int): [Comment]`, `Comment.text: String`. -/
def postsSchema : GSchema :=
  { typeMap :=
      [ objectT "Query" [⟨"posts", [], .list (.named "Post")⟩],
        objectT "Post" [⟨"comments", [⟨"limit", .named "Int"⟩], .list (.named "Comment")⟩],
        objectT "Comment" [⟨"text", [], .named "String"⟩],
        scalarT "Int", scalarT "String" ],
    queryTypeName := some "Query", mutationTypeName := none, subscriptionTypeName := none }

/-- Claim C5 (depth 3): `Query.r: R`, `R.f: F`, `F.g(a: String): String`. -/
def deepArgSchema : GSchema :=
  { typeMap :=
      [ objectT "Query" [⟨"r", [], .named "R"⟩],
        objectT "R" [⟨"f", [], .named "F"⟩],
        objectT "F" [⟨"g", [⟨"a", .named "String"⟩], .named "String"⟩],
        scalarT "String" ],
    queryTypeName := some "Query", mutationTypeName := none, subscriptionTypeName := none }

/-- Claim C6: `Query.search: Node` where `Node` is an interface
implemented by `A` and `B`, both declaring `f(x: String): String`. -/
def ifaceSchema : GSchema :=
  { typeMap :=
      [ objectT "Query" [⟨"search", [], .named "Node"⟩],
        { name := "Node", kind := .interface, fields := [⟨"f", [⟨"x", .named "String"⟩], .named "String"⟩],
          interfaces := [], unionTypes := [] },
        objectImplT "A" ["Node"] [⟨"f", [⟨"x", .named "String"⟩], .named "String"⟩],
        objectImplT "B" ["Node"] [⟨"f", [⟨"x", .named "String"⟩], .named "String"⟩],
        scalarT "String" ],
    queryTypeName := some "Query", mutationTypeName := none, subscriptionTypeName := none }

/-- Claims C2 (witness) and C9: `Query.r: R`,
`R.g(a: String, b: String!): String` — `g` has a nullable argument `a`
and a non-null argument `b`. -/
def argDropSchema : GSchema :=
  { typeMap :=
      [ objectT "Query" [⟨"r", [], .named "R"⟩],
        objectT "R" [⟨"g", [⟨"a", .named "String"⟩, ⟨"b", .nonNull (.named "String")⟩], .named "String"⟩],
        scalarT "String" ],
    queryTypeName := some "Query", mutationTypeName := none, subscriptionTypeName := none }

/-- Claim C7: the linear chain `Query.a: A`, `A.b: B`, `B.c: C`,
`C.s: String`. -/
def chainSchema : GSchema :=
  { typeMap :=
      [ objectT "Query" [⟨"a", [], .named "A"⟩],
        objectT "A" [⟨"b", [], .named "B"⟩],
        objectT "B" [⟨"c", [], .named "C"⟩],
        objectT "C" [⟨"s", [], .named "String"⟩],
        scalarT "String" ],
    queryTypeName := some "Query", mutationTypeName := none, subscriptionTypeName := none }

/-- Claim C6 (amended): `Query.r: R`,
`R.g(a: String, b: String): String` — one field with two
differently-named nullable arguments. -/
def twoArgSchema : GSchema :=
  { typeMap :=
      [ objectT "Query" [⟨"r", [], .named "R"⟩],
        objectT "R" [⟨"g", [⟨"a", .named "String"⟩, ⟨"b", .named "String"⟩], .named "String"⟩],
        scalarT "String" ],
    queryTypeName := some "Query", mutationTypeName := none, subscriptionTypeName := none }

/-!
Claim theorems.
-/

/-- C1: for the schema `Query.user: User` with
`User { id, name, friends: [User] }` and `models = ["User"]`, building
a `query` operation for field `user` yields the selection set
`{ id name friends { id } }`: the first call expands the model type
`User` fully, and the revisited model type under `friends` collapses
to the identifier-only selection set.  The result is independent of
the fuel once it covers the recursion depth of this schema. -/
theorem C1_scenario_A (n : Nat) :
    buildOperationNodeForField userSchema .query "user" (some ["User"]) [] none none none
      (.bool true) (n + 8) =
    some { operation := .query, name := "user_query", variableDefinitions := [],
           selections := [some (.field "user" none []
             (some [ .field "id" none [] none,
                     .field "name" none [] none,
                     .field "friends" none [] (some [.field "id" none [] none]) ]))] } := rfl

/-- The drop condition of `resolveField`: some argument of the field
is excluded by the configured allow-list (under its path-qualified
name) and has a non-null type. -/
def hasExcludedRequiredArg (argNames : Option (List String)) (path : List String)
    (args : List GArg) : Prop :=
  ∃ arg ∈ args, argExcluded argNames (getArgumentName arg.name path) = true ∧
    arg.type.isNonNull = true

instance (argNames : Option (List String)) (path : List String) (args : List GArg) :
    Decidable (hasExcludedRequiredArg argNames path args) := by
  unfold hasExcludedRequiredArg
  infer_instance

/-- The argument loop sets `removeField` whenever some argument is
excluded and non-null (the first such argument breaks the loop;
earlier arguments are either included or skipped and stop nothing). -/
theorem processArgs_removes (argNames : Option (List String)) (firstCall : Bool)
    (path : List String) (args : List GArg) (st : SynthState)
    (h : hasExcludedRequiredArg argNames path args) :
    (processArgs argNames firstCall path args st).2.2 = true := by
  induction args generalizing st with
  | nil => simp [hasExcludedRequiredArg] at h
  | cons a rest ih =>
    rcases h with ⟨x, hx, hex, hnn⟩
    rcases List.mem_cons.mp hx with rfl | hxrest
    · by_cases hexa : argExcluded argNames (getArgumentName x.name path) = true
      · simp [processArgs, hexa, hnn]
      · exact absurd hex hexa
    · by_cases hexa : argExcluded argNames (getArgumentName a.name path) = true
      · by_cases hnna : a.type.isNonNull = true
        · simp [processArgs, hexa, hnna]
        · simpa [processArgs, hexa, hnna] using ih st ⟨x, hxrest, hex, hnn⟩
      · simpa [processArgs, hexa] using
          ih _ ⟨x, hxrest, hex, hnn⟩

/-- C2: a field having an argument of non-null type whose
path-qualified name is not in the configured allow-list is dropped in
its entirety: `resolveField` signals the drop by returning the `null`
sentinel (for every selection-set resolver, so in particular at every
fuel), and the object-branch field loop then omits the field — its
selection list is left exactly as it was, so no partially-invalid
field call is ever emitted. -/
theorem C2_required_arg_drop :
    (∀ (rss : SSReq → SynthState → SynthState × Option (List Selection))
       (cfg : SynthConfig) (req : FieldReq) (st : SynthState),
        hasExcludedRequiredArg cfg.argNames req.path req.field.args →
        (resolveFieldWith rss cfg req st).2 = none)
    ∧ (∀ (rss : SSReq → SynthState → SynthState × Option (List Selection))
         (cfg : SynthConfig) (type : GTypeDef) (path : List String)
         (ancestors : List GTypeDef) (sf : SelectedFields) (depth : Nat)
         (acc : SynthState × List Selection) (f : GField),
        hasExcludedRequiredArg cfg.argNames (path ++ [f.name]) f.args →
        (objectFieldStep rss cfg type path ancestors sf depth acc f).2 = acc.2) := by
  have main : ∀ (rss : SSReq → SynthState → SynthState × Option (List Selection))
      (cfg : SynthConfig) (req : FieldReq) (st : SynthState),
      hasExcludedRequiredArg cfg.argNames req.path req.field.args →
      (resolveFieldWith rss cfg req st).2 = none := by
    intro rss cfg req st h
    have hrm := processArgs_removes cfg.argNames req.firstCall req.path req.field.args st h
    simp [resolveFieldWith, hrm]
  refine ⟨main, ?_⟩
  intro rss cfg type path ancestors sf depth acc f h
  have hnone := main rss cfg
    { type := type, field := f, firstCall := false, path := path ++ [f.name],
      ancestors := ancestors,
      selectedFields := if sf.isBool then SelectedFields.bool true else sf.sub f.name,
      depth := depth } acc.1 h
  simp only [objectFieldStep]
  by_cases hc :
      hasCircularRef (lookupNamedType cfg.schema f.type :: ancestors)
        cfg.circularReferenceDepth = true
  · simp [hc]
  · by_cases ht :
        (!(if sf.isBool then SelectedFields.bool true else sf.sub f.name).isTruthy) = true
    · simp [hc, ht]
    · simp only [hc, ht, if_false, Bool.false_eq_true]
      rw [hnone]

/-- C2 witness: the field `R.g(a: String, b: String!)` of
`argDropSchema` under allow-list `["r_g_a"]` at path `[r, g]`
satisfies the drop condition, and `resolveField` drops it. -/
theorem C2_required_arg_drop_witness :
    (resolveField
      { schema := argDropSchema, models := [], ignore := [], depthLimit := none,
        circularReferenceDepth := 1, argNames := some ["r_g_a"], rootTypeNames := ["Query"] }
      10
      { type := objectT "R" [⟨"g", [⟨"a", .named "String"⟩, ⟨"b", .nonNull (.named "String")⟩], .named "String"⟩],
        field := ⟨"g", [⟨"a", .named "String"⟩, ⟨"b", .nonNull (.named "String")⟩], .named "String"⟩,
        firstCall := false, path := ["r", "g"], ancestors := [],
        selectedFields := .bool true, depth := 1 }
      ⟨[], []⟩).2 = none := by
  exact C2_required_arg_drop.1 _ _ _ _ (by decide)

/-- C3 (code behavior at the failing input): for the union
`SearchResult = A | B | C` where only `A` yields a non-empty selection
set (the selected-fields tree enables only the field `a`), the union
branch produces an inline fragment for *every* member: the guard
`if (selectionSet?.selections?.length == 0) continue` does not skip an
absent (`undefined`) result because JavaScript `undefined == 0` is
false, so `B` and `C` contribute inline fragments with no selection
set instead of being omitted — three fragments where the claim (and
the spec, matching the earlier revision's `length > 0` check) require
exactly one. -/
theorem C3_union_keeps_absent_members (n : Nat) :
    buildOperationNodeForField unionSchema .query "s" none [] none none none
      (.tree [("a", .bool true)]) (n + 8) =
    some { operation := .query, name := "s_query", variableDefinitions := [],
           selections := [some (.field "s" none []
             (some [ .inlineFragment "A" (some [.field "a" none [] none]),
                     .inlineFragment "B" none,
                     .inlineFragment "C" none ]))] } := rfl

/-- C4: with `circularReferenceDepth = 1` and the self-referential
`T.related: T`, the synthesized document descends into `T` at most one
additional time: the branch `t { id related { id } }` truncates the
nested `related` by omission (its sibling `id` is unaffected).
Universally: a scalar type on top of the ancestor path is never judged
circular, and a field whose named type would exceed the occurrence
threshold in the ancestor path is skipped by the object-branch field
loop with the accumulator — state and sibling selections — left
completely untouched. -/
theorem C4_circular_truncation :
    (∀ (n : Nat),
        buildOperationNodeForField tSchema .query "t" none [] none (some 1) none
          (.bool true) (n + 8) =
        some { operation := .query, name := "t_query", variableDefinitions := [],
               selections := [some (.field "t" none []
                 (some [ .field "id" none [] none,
                         .field "related" none [] (some [.field "id" none [] none]) ]))] })
    ∧ (∀ (t : GTypeDef) (ancestors : List GTypeDef) (d : Nat),
        t.isScalarType = true → hasCircularRef (t :: ancestors) d = false)
    ∧ (∀ (rss : SSReq → SynthState → SynthState × Option (List Selection))
         (cfg : SynthConfig) (type : GTypeDef) (path : List String)
         (ancestors : List GTypeDef) (sf : SelectedFields) (depth : Nat)
         (acc : SynthState × List Selection) (f : GField),
        hasCircularRef (lookupNamedType cfg.schema f.type :: ancestors)
          cfg.circularReferenceDepth = true →
        objectFieldStep rss cfg type path ancestors sf depth acc f = acc) := by
  refine ⟨fun n => rfl, ?_, ?_⟩
  · intro t ancestors d h
    simp [hasCircularRef, h]
  · intro rss cfg type path ancestors sf depth acc f h
    simp [objectFieldStep, h]

/-- C4 witness: the scalar lemma at `String` on a stack already
containing `String`, and the skip lemma at the `T.related` field of
`tSchema` with `T` already on the ancestor path. -/
theorem C4_circular_truncation_witness :
    hasCircularRef [scalarT "String", scalarT "String"] 1 = false
    ∧ objectFieldStep (fun _ st => (st, none))
        { schema := tSchema, models := [], ignore := [], depthLimit := none,
          circularReferenceDepth := 1, argNames := none, rootTypeNames := ["Query"] }
        (objectT "T" [⟨"id", [], .named "ID"⟩, ⟨"related", [], .named "T"⟩])
        ["t", "related"]
        [objectT "T" [⟨"id", [], .named "ID"⟩, ⟨"related", [], .named "T"⟩],
         objectT "Query" [⟨"t", [], .named "T"⟩]]
        (.bool true) 2 (⟨[], []⟩, []) ⟨"related", [], .named "T"⟩ =
      (⟨[], []⟩, []) := by
  refine ⟨C4_circular_truncation.2.1 _ _ _ (by decide), ?_⟩
  exact C4_circular_truncation.2.2 _ _ _ _ _ _ _ _ _ (by decide)

/-- C5 counterexample: for `Query.r: R`, `R.f: F`,
`F.g(a: String): String` — the argument `a` two levels below the root
field — the generated variable is named `r_f_f_g_a`, not the plain
join `r_f_g_a` of the field-path segments `[r, f, g]` with the
argument name: the walker pushes each intermediate field name twice
(once in the object field loop and once in `resolveField` before
recursing), so the claim's naming rule fails below depth two. -/
theorem C5_counterexample :
    (buildOperationNodeForField deepArgSchema .query "r" none [] none none none
        (.bool true) 20).map (fun d => d.variableDefinitions.map (fun v => v.varName)) =
      some ["r_f_f_g_a"]
    ∧ getArgumentName "a" ["r", "f", "g"] = "r_f_g_a"
    ∧ "r_f_f_g_a" ≠ "r_f_g_a" := by
  refine ⟨rfl, rfl, by decide⟩

/-- C5 amended: the variable name joins the walker's path stack with
underscores and appends the argument name, where the stack holds the
root field once, each intermediate ancestor field twice, and the
current field once; for an empty path the bare argument name is used,
and for arguments at most one field below the root the name coincides
with the plain field-path join (Scenario B: `posts_comments_limit`,
referenced by the argument node under the same name).  Deeper
arguments duplicate the intermediate segments (`r_f_f_g_a`). -/
theorem C5_amended :
    (∀ (name : String), getArgumentName name [] = name)
    ∧ (∀ (n : Nat),
        buildOperationNodeForField postsSchema .query "posts" none [] none none none
          (.bool true) (n + 8) =
        some { operation := .query, name := "posts_query",
               variableDefinitions := [⟨"posts_comments_limit", .named "Int"⟩],
               selections := [some (.field "posts" none []
                 (some [ .field "comments" none [⟨"limit", "posts_comments_limit"⟩]
                           (some [.field "text" none [] none]) ]))] })
    ∧ ((buildOperationNodeForField deepArgSchema .query "r" none [] none none none
          (.bool true) 20).map (fun d => d.variableDefinitions.map (fun v => v.varName)) =
        some ["r_f_f_g_a"]) := by
  exact ⟨fun name => rfl, fun n => rfl, rfl⟩

/-- C6 counterexample: for the interface `Node` implemented by `A` and
`B`, both declaring `f(x: String)`, the fan-out registers the
variable `search_f_x` once per member type, so the synthesized
document carries two variable definitions with the same name — the
attached variable definitions are not pairwise distinct. -/
theorem C6_counterexample :
    (buildOperationNodeForField ifaceSchema .query "search" none [] none none none
        (.bool true) 20).map (fun d => d.variableDefinitions.map (fun v => v.varName)) =
      some ["search_f_x", "search_f_x"]
    ∧ ¬ (["search_f_x", "search_f_x"] : List String).Nodup := by
  exact ⟨rfl, by decide⟩

/-- C6 amended: for a fixed field path the derived name determines the
argument name (no two differently-named arguments of the same field
can collide), and a schema without interface/union fan-out and without
underscore-ambiguous path joins gets pairwise distinct variable names
(concretely: `R.g(a, b)` yields `r_g_a`, `r_g_b`); but fan-out over
member types registers the same field path once per member, so
duplicate names do occur. -/
theorem C6_amended :
    (∀ (path : List String) (a b : String),
        getArgumentName a path = getArgumentName b path → a = b)
    ∧ ((buildOperationNodeForField twoArgSchema .query "r" none [] none none none
          (.bool true) 20).map (fun d => d.variableDefinitions.map (fun v => v.varName)) =
        some ["r_g_a", "r_g_b"])
    ∧ (["r_g_a", "r_g_b"] : List String).Nodup := by
  refine ⟨?_, rfl, by decide⟩
  intro path a b h
  unfold getArgumentName at h
  by_cases hp : path.length = 0
  · simpa [hp] using h
  · simp only [hp, if_false] at h
    have hdata := congrArg String.data h
    simp only [String.data_append] at hdata
    exact String.ext (List.append_cancel_left hdata)

/-- C6 amended witness: the injectivity component applied at the
concrete path `[p, q]` and argument name `va`. -/
theorem C6_amended_witness : "va" = "va" :=
  C6_amended.1 ["p", "q"] "va" "va" rfl

/-- C7: depth bookkeeping.  In boolean selected-fields mode the walker
produces no selection set as soon as `depth > depthLimit` (for every
fuel, leaving the accumulator untouched); on the linear chain
`Query.a → A.b → B.c → C.s` with `depthLimit = 1` the boolean-mode
document stops at `a { b }`, while an object-mode selected-fields tree
covering the path `b.c.s` overrides the numeric limit and reaches
`a { b { c { s } } }` — each field recursion having advanced the depth
counter by exactly one. -/
theorem C7_depth_bookkeeping :
    (∀ (cfg : SynthConfig) (fuel : Nat) (req : SSReq) (st : SynthState),
        req.selectedFields.isBool = true →
        depthExceeds req.depth cfg.depthLimit = true →
        resolveSelectionSet cfg fuel req st = (st, none))
    ∧ (∀ (n : Nat),
        buildOperationNodeForField chainSchema .query "a" none [] (some 1) none none
          (.bool true) (n + 8) =
        some { operation := .query, name := "a_query", variableDefinitions := [],
               selections := [some (.field "a" none []
                 (some [.field "b" none [] none]))] })
    ∧ (∀ (n : Nat),
        buildOperationNodeForField chainSchema .query "a" none [] (some 1) none none
          (.tree [("b", .tree [("c", .tree [("s", .bool true)])])]) (n + 8) =
        some { operation := .query, name := "a_query", variableDefinitions := [],
               selections := [some (.field "a" none []
                 (some [.field "b" none []
                   (some [.field "c" none []
                     (some [.field "s" none [] none])])]))] }) := by
  refine ⟨?_, fun n => rfl, fun n => rfl⟩
  intro cfg fuel req st h1 h2
  cases fuel with
  | zero => rfl
  | succ f => simp [resolveSelectionSet, resolveSelectionSetGo, h1, h2]

/-- C7 witness: the depth guard applied at a concrete configuration
(`depthLimit = 1`, boolean mode, `depth = 3`). -/
theorem C7_depth_bookkeeping_witness :
    resolveSelectionSet
      { schema := chainSchema, models := [], ignore := [], depthLimit := some 1,
        circularReferenceDepth := 1, argNames := none, rootTypeNames := ["Query"] } 5
      { parent := objectT "B" [⟨"c", [], .named "C"⟩],
        type := objectT "C" [⟨"s", [], .named "String"⟩],
        firstCall := false, path := ["a", "b", "b", "c"], ancestors := [],
        selectedFields := .bool true, depth := 3 }
      ⟨[], []⟩ = (⟨[], []⟩, none) :=
  C7_depth_bookkeeping.1 _ _ _ _ (by decide) (by decide)

/-- C9 counterexample: for `R.g(a: String, b: String!)` with allow-list
`["r_g_a"]`, the field `g` is dropped (the root selection is the bare
`r` with no selection set), yet the document still carries the
variable definition `r_g_a` that was registered for `g`'s allow-listed
argument `a` before the excluded required argument `b` aborted the
field — the drop leaves partial state behind. -/
theorem C9_counterexample :
    buildOperationNodeForField argDropSchema .query "r" none [] none none (some ["r_g_a"])
      (.bool true) 20 =
    some { operation := .query, name := "r_query",
           variableDefinitions := [⟨"r_g_a", .named "String"⟩],
           selections := [some (.field "r" none [] none)] }
    ∧ ([(⟨"r_g_a", .named "String"⟩ : VariableDefinition)] : List VariableDefinition) ≠ [] := by
  exact ⟨rfl, by decide⟩

/-- C9 amended: the drop removes the field node and all its argument
nodes from the selection, but it is not atomic in the variable
accumulator: `resolveField` returns the `null` sentinel together with
exactly the state produced by the argument loop, so variable
definitions registered for the field's allow-listed arguments
processed before the excluded one remain and are attached to the
document (concretely, the dangling `r_g_a`). -/
theorem C9_amended :
    (∀ (rss : SSReq → SynthState → SynthState × Option (List Selection))
       (cfg : SynthConfig) (req : FieldReq) (st : SynthState),
        hasExcludedRequiredArg cfg.argNames req.path req.field.args →
        resolveFieldWith rss cfg req st =
          ((processArgs cfg.argNames req.firstCall req.path req.field.args st).1, none))
    ∧ ((buildOperationNodeForField argDropSchema .query "r" none [] none none
          (some ["r_g_a"]) (.bool true) 20).map
        (fun d => d.variableDefinitions.map (fun v => v.varName)) = some ["r_g_a"]) := by
  refine ⟨?_, rfl⟩
  intro rss cfg req st h
  have hrm := processArgs_removes cfg.argNames req.firstCall req.path req.field.args st h
  simp [resolveFieldWith, hrm]

/-- C9 amended witness: the drop-state characterization applied to the
concrete `R.g(a, b!)` call under allow-list `["r_g_a"]`. -/
theorem C9_amended_witness :
    resolveFieldWith (fun _ st => (st, none))
      { schema := argDropSchema, models := [], ignore := [], depthLimit := none,
        circularReferenceDepth := 1, argNames := some ["r_g_a"], rootTypeNames := ["Query"] }
      { type := objectT "R" [⟨"g", [⟨"a", .named "String"⟩, ⟨"b", .nonNull (.named "String")⟩], .named "String"⟩],
        field := ⟨"g", [⟨"a", .named "String"⟩, ⟨"b", .nonNull (.named "String")⟩], .named "String"⟩,
        firstCall := false, path := ["r", "g"], ancestors := [],
        selectedFields := .bool true, depth := 1 }
      ⟨[], []⟩ =
    ((processArgs (some ["r_g_a"]) false ["r", "g"]
        [⟨"a", .named "String"⟩, ⟨"b", .nonNull (.named "String")⟩] ⟨[], []⟩).1, none) :=
  C9_amended.1 _ _ _ _ (by decide)

/-!
Concrete nodes for the interning claims C8 and C10.
-/

def argA : Dup.DupArg := ⟨"a", "va"⟩
def argB : Dup.DupArg := ⟨"b", "vb"⟩

/-- A field chain `f0 { f1 { f2 { f3 { f4(b: $vb, a: $va) } } } }`:
the node `q4` sits at signature depth 4 — beyond `MAX_DEPTH` — and
carries its arguments in non-alphabetical order. -/
def q4 : Dup.DupNode := .field "f4" none [argB, argA] none none

def q3 : Dup.DupNode := .field "f3" none [] (some [q4]) none

def q2 : Dup.DupNode := .field "f2" none [] (some [q3]) none

def q1 : Dup.DupNode := .field "f1" none [] (some [q2]) none

def q0 : Dup.DupNode := .field "f0" none [] (some [q1]) none

/-- The first selection of a node's selection set (the node itself
when there is none) — used to address descendants of interned trees. -/
def firstChild (n : Dup.DupNode) : Dup.DupNode :=
  match n.selSet with
  | some (c :: _) => c
  | _ => n

/-- C8 counterexample: interning `q0` leaves its depth-4 descendant
`q4` with the original argument order `[b, a]` (the signature
traversal truncates there, stamping only the reduced-feature hash);
computing the structural signature of the canonical node's `f3`
descendant afterwards — as any later interning of a node containing it
within the depth bound does — sorts that argument array to `[a, b]`.
In JavaScript the sorted node is the same heap object as the canonical
tree's descendant (`Array.prototype.sort` mutates in place), so an
observable part of the interned node — the order of an arguments
array — changes after `getCachedNode` returned it, refuting the
claim. -/
theorem C8_counterexample :
    (firstChild (firstChild (firstChild (firstChild
        (Dup.getCachedNode q0 Dup.emptyCache).1)))).args = [argB, argA]
    ∧ (firstChild ((Dup.buildStructuralSignature
        (firstChild (firstChild (firstChild (Dup.getCachedNode q0 Dup.emptyCache).1))) 0).2)).args
      = [argA, argB]
    ∧ ([argA, argB] : List Dup.DupArg) ≠ [argB, argA] := by
  exact ⟨rfl, rfl, by decide⟩

/-- C8 amended: interned nodes are not immutable — signature
computation sorts field argument arrays in place within the depth
bound and stamps memoized hash fields (interning stamps one on the
node it is given), and a descendant beyond the bound keeps its
unsorted arguments until a later computation reaches it more shallowly.
The mutation is a one-time canonicalization: recomputing the signature
of a node already processed at the same depth returns the same
signature and leaves the node unchanged. -/
theorem C8_amended :
    ((Dup.buildSigGo 4 q4).2).args = [argA, argB]
    ∧ Dup.buildStructuralSignature ((Dup.buildStructuralSignature q3 0).2) 0
        = Dup.buildStructuralSignature q3 0
    ∧ ((Dup.getCachedNode q0 Dup.emptyCache).2.1.hash).isSome = true := by
  exact ⟨rfl, rfl, rfl⟩

def leafX : Dup.DupNode := .field "x" none [] none none

def leafY : Dup.DupNode := .field "y" none [] none none

/-- Two field chains agreeing down to signature depth 4 — the `f4`
nodes agree in kind, name and selection count — and differing only in
the name of the depth-5 leaf (`x` versus `y`). -/
def a4 : Dup.DupNode := .field "f4" none [] (some [leafX]) none

def b4 : Dup.DupNode := .field "f4" none [] (some [leafY]) none

def a3 : Dup.DupNode := .field "f3" none [] (some [a4]) none

def b3 : Dup.DupNode := .field "f3" none [] (some [b4]) none

def a2 : Dup.DupNode := .field "f2" none [] (some [a3]) none

def b2 : Dup.DupNode := .field "f2" none [] (some [b3]) none

def a1 : Dup.DupNode := .field "f1" none [] (some [a2]) none

def b1 : Dup.DupNode := .field "f1" none [] (some [b2]) none

def a0 : Dup.DupNode := .field "f0" none [] (some [a1]) none

def b0 : Dup.DupNode := .field "f0" none [] (some [b1]) none

/-- C10: the trees `a0` and `b0` differ only at depth 5 — their
depth-5 leaves are `x` and `y` respectively — yet their depth-4 `f4`
nodes have the same reduced-feature hash (same kind, name and
selection count), so the bounded-depth signature conflates them: both
trees receive the same structural signature, and interning `b0` into
a cache already holding `a0` returns `a0`'s canonical node — whose
leaf is `x` — for the structurally different `b0`. -/
theorem C10_truncation_conflation :
    Dup.calculateNodeHash a4 = Dup.calculateNodeHash b4
    ∧ (Dup.buildStructuralSignature a0 0).1 = (Dup.buildStructuralSignature b0 0).1
    ∧ (firstChild (firstChild (firstChild (firstChild (firstChild a0))))).name = "x"
    ∧ (firstChild (firstChild (firstChild (firstChild (firstChild b0))))).name = "y"
    ∧ (Dup.getCachedNode b0 (Dup.getCachedNode a0 Dup.emptyCache).2.2).1
        = (Dup.getCachedNode a0 Dup.emptyCache).1
    ∧ (firstChild (firstChild (firstChild (firstChild (firstChild
        (Dup.getCachedNode b0 (Dup.getCachedNode a0 Dup.emptyCache).2.2).1))))).name = "x" := by
  exact ⟨rfl, rfl, rfl, rfl, rfl, rfl⟩

end Sofa
